import Mathlib

/-!
Shallow embedding of the loan-engine repository (Go) for verification.

Money amounts (`float64` decimal quantities in Go) are modelled as exact
rationals `ℚ`; `time.Time` instants are modelled as an abstract tick `Time`
(an integer); Go `error` results (`errors.New` strings) are modelled by the
inductive `LoanError`, one constructor per `errors.New` site, with the
overfunding constructor carrying the `remaining` value the source computes
and embeds into its message.

Source files embedded:
- `internal/domain/entity` (loan entity, business rules) — the file of
  unknown name containing `Loan`, `Approve`, `ValidateInvestmentAmount`, ...
- `internal/delivery/http/loan_handler.go` — evidence-format validation.
- The `usecase` package (orchestration layer) is not part of the available
  sources; the definitions marked `Modelled from the spec:` reconstruct it
  from the specification.
-/

/-- Go `time.Time` instants, modelled as abstract integer ticks. -/
abbrev Time := Int

/-- LoanState represents the possible states of a loan
(`StateProposed`, `StateApproved`, `StateInvested`, `StateDisbursed`). -/
inductive LoanState where
  | proposed
  | approved
  | invested
  | disbursed
deriving DecidableEq, Repr

/-- Position of a state in the lifecycle order
proposed < approved < invested < disbursed. -/
def LoanState.rank : LoanState → Nat
  | .proposed => 0
  | .approved => 1
  | .invested => 2
  | .disbursed => 3

/-- One `LoanError` constructor per `errors.New` site in the embedded Go
code; `exceedsRemaining` carries the `remaining := l.PrincipalAmount -
currentTotalInvestment` value the source computes and renders into its
message. -/
inductive LoanError where
  | notProposed
  | notInvestable
  | nonPositiveAmount
  | exceedsRemaining (remaining : ℚ)
  | notInvested
  | employeeIDTooShort
  | badDateFormat
deriving DecidableEq, Repr

/-- Loan represents the core loan entity (struct `Loan` in
`internal/domain/entity`). `float64` fields are `ℚ`, `*string` and
`*time.Time` fields are `Option`. -/
structure Loan where
  ID : Int
  BorrowerIDNumber : String
  PrincipalAmount : ℚ
  Rate : ℚ
  ROI : ℚ
  State : LoanState
  AgreementLetterLink : String
  CreatedAt : Time
  UpdatedAt : Time
  ApprovalProofPicture : Option String
  ApprovalEmployeeID : Option String
  ApprovalDate : Option Time
  SignedAgreementDoc : Option String
  DisbursementEmployeeID : Option String
  DisbursementDate : Option Time
deriving DecidableEq, Repr

/-- CanBeApproved checks if loan can be approved; `none` models Go's `nil`
error. -/
def Loan.CanBeApproved (l : Loan) : Option LoanError :=
  if l.State ≠ .proposed then some .notProposed else none

/-- Approve transitions loan to approved state. The Go method mutates its
pointer receiver and returns an error; here it returns the receiver after
the call together with the returned error. `now` stands for `time.Now()`. -/
def Loan.Approve (l : Loan) (proofPicture employeeID : String)
    (approvalDate now : Time) : Loan × Option LoanError :=
  match l.CanBeApproved with
  | some e => (l, some e)
  | none =>
      ({ l with
          State := .approved
          ApprovalProofPicture := some proofPicture
          ApprovalEmployeeID := some employeeID
          ApprovalDate := some approvalDate
          UpdatedAt := now }, none)

/-- CanReceiveInvestment checks if loan can receive investments. -/
def Loan.CanReceiveInvestment (l : Loan) : Option LoanError :=
  if l.State ≠ .approved ∧ l.State ≠ .invested then some .notInvestable
  else none

/-- ValidateInvestmentAmount checks if investment amount is valid. -/
def Loan.ValidateInvestmentAmount (l : Loan) (amount currentTotalInvestment : ℚ) :
    Option LoanError :=
  if amount ≤ 0 then some .nonPositiveAmount
  else if currentTotalInvestment + amount > l.PrincipalAmount then
    some (.exceedsRemaining (l.PrincipalAmount - currentTotalInvestment))
  else none

/-- MarkAsInvested transitions loan to invested state when fully funded;
`now` stands for `time.Now()`. -/
def Loan.MarkAsInvested (l : Loan) (now : Time) : Loan :=
  if l.State = .approved then { l with State := .invested, UpdatedAt := now }
  else l

/-- CanBeDisbursed checks if loan can be disbursed. -/
def Loan.CanBeDisbursed (l : Loan) : Option LoanError :=
  if l.State ≠ .invested then some .notInvested else none

/-- Disburse transitions loan to disbursed state; receiver-after-call plus
returned error, as for `Approve`. -/
def Loan.Disburse (l : Loan) (signedAgreementDoc employeeID : String)
    (disbursementDate now : Time) : Loan × Option LoanError :=
  match l.CanBeDisbursed with
  | some e => (l, some e)
  | none =>
      ({ l with
          State := .disbursed
          SignedAgreementDoc := some signedAgreementDoc
          DisbursementEmployeeID := some employeeID
          DisbursementDate := some disbursementDate
          UpdatedAt := now }, none)

/-- IsFullyInvested checks if the loan is fully invested. -/
def Loan.IsFullyInvested (l : Loan) (totalInvestment : ℚ) : Bool :=
  totalInvestment == l.PrincipalAmount

/-- GetRemainingAmount calculates remaining investment amount needed. -/
def Loan.GetRemainingAmount (l : Loan) (totalInvestment : ℚ) : ℚ :=
  let remaining := l.PrincipalAmount - totalInvestment
  if remaining < 0 then 0 else remaining

/-- Go's `len` on a string is its UTF-8 byte length. -/
def goLen (s : String) : Nat :=
  s.utf8ByteSize

/-- validateEmployeeIDAndDateFormat (loan_handler.go): rejects an employee
id of Go length < 3, then parses the date field. `time.Parse` is an
external library call of the date string alone, represented here by its
result `parsedDate` (`none` = parse error). -/
def validateEmployeeIDAndDateFormat (employeeID : String)
    (parsedDate : Option Time) : Except LoanError Time :=
  if goLen employeeID < 3 then .error .employeeIDTooShort
  else
    match parsedDate with
    | none => .error .badDateFormat
    | some d => .ok d

/-- The `ApproveLoan` handler pipeline (loan_handler.go) from the evidence
field validation onward, composed with the entity transition.
Modelled from the spec: the `usecase` package is not among the available
sources; per §4.3, `approveLoan` loads the loan, applies the entity
`Approve` transition and persists the result. File upload handling is an
external boundary, represented by the already-stored reference string
`proofPicturePath`. -/
def approveLoanRequest (l : Loan) (employeeID : String)
    (parsedDate : Option Time) (proofPicturePath : String) (now : Time) :
    Loan × Option LoanError :=
  match validateEmployeeIDAndDateFormat employeeID parsedDate with
  | .error e => (l, some e)
  | .ok d => l.Approve proofPicturePath employeeID d now

/-- State of one loan's ledger: the loan record plus the amounts of its
persisted investments; the total invested is computed on demand as their
sum, never cached. -/
structure LedgerState where
  loan : Loan
  investments : List ℚ
deriving DecidableEq, Repr

/-- Total invested for the loan: sum of its persisted investment amounts. -/
def LedgerState.totalInvested (s : LedgerState) : ℚ :=
  s.investments.sum

/-- Modelled from the spec: §4.1 `promoteIfFullyFunded`, invoked by the
missing usecase package after each investment — promotes exactly when the
loan `IsFullyInvested` at the new total (the entity `MarkAsInvested`
itself no-ops unless the state is approved). -/
def promoteIfFullyFunded (l : Loan) (totalInvested : ℚ) (now : Time) : Loan :=
  if l.IsFullyInvested totalInvested then l.MarkAsInvested now else l

/-- Modelled from the spec: §4.3 `investInLoan` of the missing usecase
package — inside the per-loan critical section it recomputes the current
total from the persisted investments, applies the admission rule
(`CanReceiveInvestment`, then `ValidateInvestmentAmount`), persists the new
investment, and promotes if fully funded. Returns the state after the call
and the error result. -/
def investInLoan (s : LedgerState) (amount : ℚ) (now : Time) :
    LedgerState × Option LoanError :=
  match s.loan.CanReceiveInvestment with
  | some e => (s, some e)
  | none =>
    let total := s.investments.sum
    match s.loan.ValidateInvestmentAmount amount total with
    | some e => (s, some e)
    | none =>
        (⟨promoteIfFullyFunded s.loan (total + amount) now,
          s.investments ++ [amount]⟩, none)

/-- Modelled from the spec: §5 per-loan serialization — a batch of
concurrent `investInLoan` calls against one loan executes as some
sequential order of the calls; `runInvests` runs one such order and
collects each call's error result. -/
def runInvests (s : LedgerState) (amts : List ℚ) (now : Time) :
    LedgerState × List (Option LoanError) :=
  match amts with
  | [] => (s, [])
  | a :: rest =>
    let r := investInLoan s a now
    let rest' := runInvests r.fst rest now
    (rest'.fst, r.snd :: rest'.snd)

/-- Number of calls in a batch that returned no error. -/
def successCount (rs : List (Option LoanError)) : Nat :=
  (rs.filter Option.isNone).length

/-- Running total after admitting, in order, every amount of `amts` that
passes `ValidateInvestmentAmount` against the sum of the previously
admitted amounts (skipping the rejected ones), starting from zero. -/
def acceptedTotal (l : Loan) (amts : List ℚ) : ℚ :=
  amts.foldl (fun total a =>
    match l.ValidateInvestmentAmount a total with
    | none => total + a
    | some _ => total) 0

/-- Concrete approved loan with principal 1,000,000 used as evaluation
input by the witness statements. -/
def demoLoan : Loan :=
  ⟨1, "B1", 1000000, 10, 8, .approved, "http://agreement", 0, 0,
    some "pic", some "emp", some 0, none, none, none⟩

/-- `demoLoan` with an empty ledger. -/
def demoState : LedgerState :=
  ⟨demoLoan, []⟩

/-- Concrete loan still in proposed state. -/
def proposedDemoLoan : Loan :=
  ⟨2, "B2", 1000000, 10, 8, .proposed, "http://agreement", 0, 0,
    none, none, none, none, none, none⟩

lemma validateInvestmentAmount_eq_none (l : Loan) (amount total : ℚ)
    (h : l.ValidateInvestmentAmount amount total = none) :
    0 < amount ∧ total + amount ≤ l.PrincipalAmount := by
  unfold Loan.ValidateInvestmentAmount at h
  split_ifs at h with h1 h2
  exact ⟨lt_of_not_le h1, le_of_not_lt h2⟩

lemma acceptedTotal_foldl_le (l : Loan) (amts : List ℚ) :
    ∀ total : ℚ, total ≤ l.PrincipalAmount →
      amts.foldl (fun total a =>
        match l.ValidateInvestmentAmount a total with
        | none => total + a
        | some _ => total) total ≤ l.PrincipalAmount := by
  induction amts with
  | nil => intro total h; simpa using h
  | cons a rest ih =>
      intro total h
      simp only [List.foldl_cons]
      rcases hv : l.ValidateInvestmentAmount a total with _ | e
      · exact ih _ (validateInvestmentAmount_eq_none l a total hv).2
      · exact ih _ h

/-- Claim C1: funding ceiling — for every loan with strictly positive
principal and every finite sequence of proposed amounts, the running sum of
the amounts admitted by `ValidateInvestmentAmount` (each checked against
the sum of the previously admitted amounts) never exceeds the principal;
moreover the check succeeds only when `currentTotal + amount` is at most
the principal. -/
theorem funding_ceiling (l : Loan) (hP : 0 < l.PrincipalAmount) :
    (∀ amts : List ℚ, acceptedTotal l amts ≤ l.PrincipalAmount) ∧
    (∀ amount total : ℚ, l.ValidateInvestmentAmount amount total = none →
      total + amount ≤ l.PrincipalAmount) := by
  constructor
  · intro amts
    exact acceptedTotal_foldl_le l amts 0 (le_of_lt hP)
  · intro amount total h
    exact (validateInvestmentAmount_eq_none l amount total h).2

/-- Witness for C1 at `demoLoan` (principal 1,000,000) and the sequence
[600000, 600000, 400000]. -/
theorem funding_ceiling_witness :
    0 < demoLoan.PrincipalAmount ∧
    acceptedTotal demoLoan [600000, 600000, 400000] ≤ demoLoan.PrincipalAmount := by
  refine ⟨by decide, ?_⟩
  exact (funding_ceiling demoLoan (by decide)).1 [600000, 600000, 400000]

/-- Claim C5: admission rule — for a loan in an investable state
(`CanReceiveInvestment` returns no error), `ValidateInvestmentAmount`
succeeds iff the amount is strictly positive and `total + amount` is at
most the principal; it returns the non-positive-amount error when
`amount ≤ 0`, and the overfunding error carrying the remaining headroom
when the sum would exceed the principal. -/
theorem admission_iff (l : Loan) (amount total : ℚ)
    (_hs : l.CanReceiveInvestment = none) :
    (l.ValidateInvestmentAmount amount total = none ↔
      0 < amount ∧ total + amount ≤ l.PrincipalAmount) ∧
    (amount ≤ 0 →
      l.ValidateInvestmentAmount amount total = some .nonPositiveAmount) ∧
    (0 < amount → l.PrincipalAmount < total + amount →
      l.ValidateInvestmentAmount amount total =
        some (.exceedsRemaining (l.PrincipalAmount - total))) := by
  refine ⟨⟨fun h => validateInvestmentAmount_eq_none l amount total h, ?_⟩, ?_, ?_⟩
  · rintro ⟨h1, h2⟩
    unfold Loan.ValidateInvestmentAmount
    rw [if_neg (not_le.mpr h1), if_neg (not_lt.mpr h2)]
  · intro h
    unfold Loan.ValidateInvestmentAmount
    rw [if_pos h]
  · intro h1 h2
    unfold Loan.ValidateInvestmentAmount
    rw [if_neg (not_le.mpr h1), if_pos h2]

/-- Witness for C5 at `demoLoan` (approved, principal 1,000,000), amount
600,000 against a zero current total. -/
theorem admission_iff_witness :
    demoLoan.CanReceiveInvestment = none ∧
    (demoLoan.ValidateInvestmentAmount 600000 0 = none ↔
      0 < (600000 : ℚ) ∧ (0 : ℚ) + 600000 ≤ demoLoan.PrincipalAmount) :=
  ⟨by decide, (admission_iff demoLoan 600000 0 (by decide)).1⟩

/-- Claim C9: the non-positive check takes precedence — whenever
`amount ≤ 0`, `ValidateInvestmentAmount` returns the non-positive-amount
error regardless of how `currentTotal` compares to the principal, so the
overfunding branch is reachable only for strictly positive amounts. -/
theorem nonpositive_precedence (l : Loan) (amount total : ℚ)
    (h : amount ≤ 0) :
    l.ValidateInvestmentAmount amount total = some .nonPositiveAmount := by
  unfold Loan.ValidateInvestmentAmount
  rw [if_pos h]

/-- Witness for C9 at `demoLoan`, amount 0, and a current total of
2,000,000 that already exceeds the principal. -/
theorem nonpositive_precedence_witness :
    (0 : ℚ) ≤ 0 ∧
    demoLoan.ValidateInvestmentAmount 0 2000000 = some .nonPositiveAmount :=
  ⟨by decide, nonpositive_precedence demoLoan 0 2000000 (by decide)⟩

/-- Claim C3: forward-only state progression — each entity operation
(Approve, MarkAsInvested, Disburse) never decreases the loan state in the
order proposed < approved < invested < disbursed; Approve succeeds only
proposed→approved, MarkAsInvested changes the state only approved→invested,
Disburse succeeds only invested→disbursed, and a failed Approve or Disburse
leaves the loan untouched. -/
theorem forward_only_state (l : Loan) (pic emp doc : String) (d now : Time) :
    (l.State.rank ≤ (l.Approve pic emp d now).1.State.rank ∧
      ((l.Approve pic emp d now).2 = none →
        l.State = .proposed ∧ (l.Approve pic emp d now).1.State = .approved) ∧
      ((l.Approve pic emp d now).2 ≠ none → (l.Approve pic emp d now).1 = l)) ∧
    (l.State.rank ≤ (l.MarkAsInvested now).State.rank ∧
      ((l.MarkAsInvested now).State ≠ l.State →
        l.State = .approved ∧ (l.MarkAsInvested now).State = .invested)) ∧
    (l.State.rank ≤ (l.Disburse doc emp d now).1.State.rank ∧
      ((l.Disburse doc emp d now).2 = none →
        l.State = .invested ∧ (l.Disburse doc emp d now).1.State = .disbursed) ∧
      ((l.Disburse doc emp d now).2 ≠ none → (l.Disburse doc emp d now).1 = l)) := by
  cases hState : l.State <;>
    simp [Loan.Approve, Loan.CanBeApproved, Loan.MarkAsInvested,
      Loan.Disburse, Loan.CanBeDisbursed, LoanState.rank, hState]

/-- Witness for C3 at `demoLoan` (approved): MarkAsInvested moves it to
invested, and a Disburse attempt fails leaving it unchanged. -/
theorem forward_only_state_witness :
    demoLoan.State.rank ≤ (demoLoan.MarkAsInvested 7).State.rank ∧
    ((demoLoan.Disburse "doc" "emp" 3 7).2 ≠ none →
      (demoLoan.Disburse "doc" "emp" 3 7).1 = demoLoan) :=
  ⟨((forward_only_state demoLoan "pic" "emp" "doc" 3 7).2.1).1,
    ((forward_only_state demoLoan "pic" "emp" "doc" 3 7).2.2).2.2⟩

/-- Claim C4: auto-promotion exactness — `IsFullyInvested` is exact
equality with the principal, `promoteIfFullyFunded` yields the invested
state iff the total equals the principal exactly while the loan is
approved (or it was already invested), and a total strictly below the
principal never changes the loan. -/
theorem auto_promotion_exact (l : Loan) (total : ℚ) (now : Time) :
    (l.IsFullyInvested total = true ↔ total = l.PrincipalAmount) ∧
    ((promoteIfFullyFunded l total now).State = .invested ↔
      (l.State = .approved ∧ total = l.PrincipalAmount) ∨ l.State = .invested) ∧
    (total < l.PrincipalAmount → promoteIfFullyFunded l total now = l) := by
  refine ⟨by simp [Loan.IsFullyInvested], ?_, ?_⟩
  · by_cases hT : total = l.PrincipalAmount <;>
      cases hState : l.State <;>
        simp [promoteIfFullyFunded, Loan.IsFullyInvested, Loan.MarkAsInvested,
          hT, hState]
  · intro hT
    simp [promoteIfFullyFunded, Loan.IsFullyInvested, ne_of_lt hT]

/-- Witness for C4 at `demoLoan` (approved, principal 1,000,000): a total
of exactly 1,000,000 promotes it, a total of 600,000 does not. -/
theorem auto_promotion_exact_witness :
    ((promoteIfFullyFunded demoLoan 1000000 7).State = .invested ↔
      (demoLoan.State = .approved ∧ (1000000 : ℚ) = demoLoan.PrincipalAmount) ∨
        demoLoan.State = .invested) ∧
    ((600000 : ℚ) < demoLoan.PrincipalAmount ∧
      promoteIfFullyFunded demoLoan 600000 7 = demoLoan) :=
  ⟨(auto_promotion_exact demoLoan 1000000 7).2.1,
    by decide, (auto_promotion_exact demoLoan 600000 7).2.2 (by decide)⟩

/-- Claim C7: Disburse on a loan whose state is not invested fails with
the invalid-transition error, and the returned loan — state, evidence
fields and timestamps — is the untouched input. -/
theorem disburse_requires_invested (l : Loan) (doc emp : String)
    (d now : Time) (h : l.State ≠ .invested) :
    l.Disburse doc emp d now = (l, some .notInvested) := by
  unfold Loan.Disburse Loan.CanBeDisbursed
  rw [if_pos h]

/-- Witness for C7 at `proposedDemoLoan` (still proposed). -/
theorem disburse_requires_invested_witness :
    proposedDemoLoan.State ≠ .invested ∧
    proposedDemoLoan.Disburse "doc" "emp" 3 7 =
      (proposedDemoLoan, some .notInvested) :=
  ⟨by decide, disburse_requires_invested proposedDemoLoan "doc" "emp" 3 7 (by decide)⟩

/-- Claim C10: frame of MarkAsInvested — on a non-approved loan it is the
identity (every field, `UpdatedAt` included, unchanged); on an approved
loan it changes exactly the `State` (to invested) and `UpdatedAt` fields. -/
theorem markAsInvested_frame (l : Loan) (now : Time) :
    (l.State ≠ .approved → l.MarkAsInvested now = l) ∧
    (l.State = .approved →
      l.MarkAsInvested now = { l with State := .invested, UpdatedAt := now }) := by
  unfold Loan.MarkAsInvested
  constructor
  · intro h
    rw [if_neg h]
  · intro h
    rw [if_pos h]

/-- Witness for C10 at a proposed loan (identity) and an approved loan
(only State and UpdatedAt change). -/
theorem markAsInvested_frame_witness :
    proposedDemoLoan.State ≠ .approved ∧
    proposedDemoLoan.MarkAsInvested 7 = proposedDemoLoan ∧
    demoLoan.State = .approved ∧
    demoLoan.MarkAsInvested 7 =
      { demoLoan with State := .invested, UpdatedAt := 7 } :=
  ⟨by decide, (markAsInvested_frame proposedDemoLoan 7).1 (by decide),
    rfl, (markAsInvested_frame demoLoan 7).2 rfl⟩

/-- Counterexample to C8 as stated: Go's length check is on UTF-8 bytes,
so the staff identifier "éé" — two characters but four bytes — passes
validation, and the loan reaches the approved state with a two-character
approving-staff identifier. -/
theorem approve_short_staff_id_cex :
    ("éé" : String).length = 2 ∧
    (approveLoanRequest proposedDemoLoan "éé" (some 3) "pic" 7).2 = none ∧
    (approveLoanRequest proposedDemoLoan "éé" (some 3) "pic" 7).1.State = .approved ∧
    (approveLoanRequest proposedDemoLoan "éé" (some 3) "pic" 7).1.ApprovalEmployeeID
      = some "éé" :=
  ⟨by decide, rfl, rfl, rfl⟩

/-- Claim C8 amended: for every approve request whose staff identifier is
shorter than 3 bytes (Go `len` on the UTF-8 encoding), the pipeline fails
with the invalid-evidence error before any state change, so no loan ever
reaches the approved state through it with an approving-staff identifier
of fewer than 3 bytes. -/
theorem approve_short_staff_id_bytes (l : Loan) (employeeID pic : String)
    (parsedDate : Option Time) (now : Time) (h : goLen employeeID < 3) :
    approveLoanRequest l employeeID parsedDate pic now =
      (l, some .employeeIDTooShort) := by
  unfold approveLoanRequest validateEmployeeIDAndDateFormat
  rw [if_pos h]

/-- Witness for the amended C8: the two-byte staff id "ab" is rejected and
the proposed loan is left unchanged. -/
theorem approve_short_staff_id_bytes_witness :
    goLen "ab" < 3 ∧
    approveLoanRequest proposedDemoLoan "ab" (some 3) "pic" 7 =
      (proposedDemoLoan, some .employeeIDTooShort) :=
  ⟨by decide,
    approve_short_staff_id_bytes proposedDemoLoan "ab" "pic" (some 3) 7 (by decide)⟩

lemma promoteIfFullyFunded_principal (l : Loan) (t : ℚ) (now : Time) :
    (promoteIfFullyFunded l t now).PrincipalAmount = l.PrincipalAmount := by
  unfold promoteIfFullyFunded Loan.MarkAsInvested
  split
  · split <;> rfl
  · rfl

lemma investInLoan_characterization (s : LedgerState) (a : ℚ) (now : Time) :
    ((investInLoan s a now).2 = none ∧
      (investInLoan s a now).1.totalInvested = s.totalInvested + a ∧
      s.totalInvested + a ≤ s.loan.PrincipalAmount ∧
      (investInLoan s a now).1.loan.PrincipalAmount = s.loan.PrincipalAmount) ∨
    ((investInLoan s a now).2.isSome ∧ (investInLoan s a now).1 = s) := by
  unfold investInLoan
  rcases h1 : s.loan.CanReceiveInvestment with _ | e
  · simp only [h1]
    rcases h2 : s.loan.ValidateInvestmentAmount a s.investments.sum with _ | e
    · simp only [h2]
      left
      refine ⟨trivial, ?_, ?_, promoteIfFullyFunded_principal _ _ _⟩
      · simp [LedgerState.totalInvested]
      · exact (validateInvestmentAmount_eq_none s.loan a s.investments.sum h2).2
    · simp only [h2]
      right
      exact ⟨rfl, trivial⟩
  · simp only [h1]
    right
    exact ⟨rfl, trivial⟩

lemma runInvests_pair (s : LedgerState) (x y : ℚ) (now : Time) :
    runInvests s [x, y] now =
      ((investInLoan (investInLoan s x now).1 y now).1,
        [(investInLoan s x now).2,
          (investInLoan (investInLoan s x now).1 y now).2]) := by
  simp [runInvests]

lemma two_invests_safe (s : LedgerState) (x y : ℚ) (now : Time)
    (hstart : s.totalInvested ≤ s.loan.PrincipalAmount) :
    (s.loan.PrincipalAmount < s.totalInvested + x + y →
      successCount (runInvests s [x, y] now).2 ≤ 1) ∧
    (runInvests s [x, y] now).1.totalInvested ≤ s.loan.PrincipalAmount := by
  have h1 := investInLoan_characterization s x now
  have h2 := investInLoan_characterization (investInLoan s x now).1 y now
  rw [runInvests_pair]
  rcases h1 with ⟨e1, t1, b1, p1⟩ | ⟨e1, f1⟩
  · rcases h2 with ⟨e2, t2, b2, p2⟩ | ⟨e2, f2⟩
    · rw [t1, p1] at b2
      constructor
      · intro hover
        exact absurd b2 (not_le.mpr hover)
      · rw [t2, t1]
        exact b2
    · rcases Option.isSome_iff_exists.mp e2 with ⟨err2, he2⟩
      constructor
      · intro _
        simp [successCount, e1, he2, List.filter]
      · rw [f2, t1]
        exact b1
  · rcases Option.isSome_iff_exists.mp e1 with ⟨err1, he1⟩
    rw [f1] at h2 ⊢
    rcases h2 with ⟨e2, t2, b2, p2⟩ | ⟨e2, f2⟩
    · constructor
      · intro _
        simp [successCount, he1, e2, List.filter]
      · rw [t2]
        exact b2
    · rcases Option.isSome_iff_exists.mp e2 with ⟨err2, he2⟩
      constructor
      · intro _
        simp [successCount, he1, he2, List.filter]
      · rw [f2]
        exact hstart

/-- Claim C2: per-loan serialization — two concurrent `investInLoan` calls
against the same loan execute in one of the two serial orders; in either
order, when the two amounts together would exceed the principal at most
one call succeeds, and the final stored total never exceeds the principal. -/
theorem concurrent_invest_serialized (s : LedgerState) (a b : ℚ)
    (order : List ℚ) (now : Time)
    (horder : order = [a, b] ∨ order = [b, a])
    (hstart : s.totalInvested ≤ s.loan.PrincipalAmount) :
    (s.loan.PrincipalAmount < s.totalInvested + a + b →
      successCount (runInvests s order now).2 ≤ 1) ∧
    (runInvests s order now).1.totalInvested ≤ s.loan.PrincipalAmount := by
  rcases horder with rfl | rfl
  · exact two_invests_safe s a b now hstart
  · have h := two_invests_safe s b a now hstart
    refine ⟨fun hover => h.1 (by linarith), h.2⟩

/-- Witness for C2: Scenario C — two 600,000 investments against
`demoLoan` (principal 1,000,000, zero prior investment): at most one
succeeds and the final total stays within the principal. -/
theorem concurrent_invest_serialized_witness :
    demoState.totalInvested ≤ demoState.loan.PrincipalAmount ∧
    demoState.loan.PrincipalAmount <
      demoState.totalInvested + 600000 + 600000 ∧
    successCount (runInvests demoState [600000, 600000] 7).2 ≤ 1 ∧
    (runInvests demoState [600000, 600000] 7).1.totalInvested ≤
      demoState.loan.PrincipalAmount := by
  have hstart : demoState.totalInvested ≤ demoState.loan.PrincipalAmount := by
    decide
  have hover : demoState.loan.PrincipalAmount <
      demoState.totalInvested + 600000 + 600000 := by
    norm_num [demoState, demoLoan, LedgerState.totalInvested]
  have h := concurrent_invest_serialized demoState 600000 600000
    [600000, 600000] 7 (Or.inl rfl) hstart
  exact ⟨hstart, hover, h.1 hover, h.2⟩

/-- Claim C6: overfunding rejection — for a loan that can receive
investments and a positive amount whose admission would exceed the
principal, `investInLoan` fails with the overfunding error carrying the
remaining headroom `PrincipalAmount - currentTotal`, and the returned
state (loan and ledger) is the untouched input. -/
theorem overfund_rejected_headroom (s : LedgerState) (amount : ℚ)
    (now : Time)
    (hstate : s.loan.CanReceiveInvestment = none)
    (hpos : 0 < amount)
    (hover : s.loan.PrincipalAmount < s.totalInvested + amount) :
    investInLoan s amount now =
      (s, some (.exceedsRemaining
        (s.loan.PrincipalAmount - s.totalInvested))) := by
  have hv : s.loan.ValidateInvestmentAmount amount s.investments.sum =
      some (.exceedsRemaining (s.loan.PrincipalAmount - s.investments.sum)) := by
    unfold Loan.ValidateInvestmentAmount
    rw [if_neg (not_le.mpr hpos),
      if_pos (show s.investments.sum + amount > s.loan.PrincipalAmount from hover)]
  unfold investInLoan
  simp only [hstate, hv]
  rfl

/-- Witness for C6: Scenario B — investing 1,000,001 against `demoLoan`
(principal 1,000,000, zero prior investment) is rejected with headroom
1,000,000 and the state is unchanged. -/
theorem overfund_rejected_headroom_witness :
    demoState.loan.CanReceiveInvestment = none ∧
    (0 : ℚ) < 1000001 ∧
    demoState.loan.PrincipalAmount < demoState.totalInvested + 1000001 ∧
    demoState.loan.PrincipalAmount - demoState.totalInvested = 1000000 ∧
    investInLoan demoState 1000001 7 =
      (demoState, some (.exceedsRemaining
        (demoState.loan.PrincipalAmount - demoState.totalInvested))) := by
  have hover : demoState.loan.PrincipalAmount <
      demoState.totalInvested + 1000001 := by
    norm_num [demoState, demoLoan, LedgerState.totalInvested]
  refine ⟨by decide, by decide, hover, ?_, ?_⟩
  · norm_num [demoState, demoLoan, LedgerState.totalInvested]
  · exact overfund_rejected_headroom demoState 1000001 7 (by decide)
      (by decide) hover
